import Mathlib

/-!
# The net/http host of http-wasm (`handler/nethttp/host.go`)

A shallow embedding of the `host` methods of package `wasm` and of the few
standard-library routines they call (`strings.HasPrefix`, `sort.Strings`,
`textproto.CanonicalMIMEHeaderKey`, `http.Header.Set/Values`,
`url.URL.EscapedPath`, `url.ParseRequestURI`).

Conventions.
* A Go `string` is a Lean `String`.  Go works on the UTF-8 bytes; every byte
  test made by the modelled routines only separates ASCII bytes from each
  other and from all bytes `≥ 0x80`, so it is made here on characters
  (a character `≥ 128` stands for bytes that are all `≥ 0x80`).  The one
  exception is `URL.Path`: percent-decoding can produce any byte sequence, so
  the path is kept as its list of bytes.
* A Go `map[string][]string` is an association list with pairwise distinct
  keys (`AList`).  The order of the list is one of the orders in which Go may
  range over the map; statements about enumerations are therefore stated up to
  order.
* A method with a pointer receiver that mutates the transaction returns the
  new transaction; a reading method that may panic returns an `Option`; a
  mutating method that may panic returns an `Outcome`, the transaction as the
  call left it together with the panic value.
-/

namespace Wasm

/-! ## Standard library: strings -/

/-- Go `strings.HasPrefix`:
`len(s) >= len(prefix) && s[:len(prefix)] == prefix`. -/
def HasPrefix (s pre : String) : Bool :=
  decide (pre.length ≤ s.length) && (s.data.take pre.length == pre.data)

/-- Go slice expression `s[k:]`. -/
def sliceFrom (s : String) (k : Nat) : String :=
  ⟨s.data.drop k⟩

/-- Go `a < b` on strings: lexicographic comparison. -/
def lessString : List Char → List Char → Bool
  | [], [] => false
  | [], _ :: _ => true
  | _ :: _, [] => false
  | a :: as, b :: bs => decide (a.toNat < b.toNat) || (a.toNat == b.toNat && lessString as bs)

/-- Go `sort.Strings`: sorts in increasing order. -/
def sortStrings (names : List String) : List String :=
  names.insertionSort (fun a b => lessString b.data a.data = false)

/-! ## Standard library: `textproto.CanonicalMIMEHeaderKey` -/

/-- Go `textproto.validHeaderFieldByte`: the `tchar` bytes of RFC 7230,
`! # $ % & ' * + - . ^ _ backquote | ~`, digits and letters. -/
def validHeaderFieldByte (c : Char) : Bool :=
  let n := c.toNat
  (48 ≤ n && n ≤ 57) || (65 ≤ n && n ≤ 90) || (97 ≤ n && n ≤ 122) ||
    [33, 35, 36, 37, 38, 39, 42, 43, 45, 46, 94, 95, 96, 124, 126].contains n

/-- The first loop of `CanonicalMIMEHeaderKey` ("quick check for canonical
encoding"): `true` when the loop hands the key over to
`canonicalMIMEHeaderKey`, `false` when it returns the key as it is (at the
first invalid byte, or at the end of an already canonical key). -/
def needsCanon : Bool → List Char → Bool
  | _, [] => false
  | upper, c :: cs =>
    if !validHeaderFieldByte c then false
    else if upper && (97 ≤ c.toNat && c.toNat ≤ 122) then true
    else if !upper && (65 ≤ c.toNat && c.toNat ≤ 90) then true
    else needsCanon (c == '-') cs

/-- One step of the second loop of `canonicalMIMEHeaderKey`: a lower-case
letter where an upper-case one is due loses `toLower = 32`, an upper-case
letter where a lower-case one is due gains it. -/
def recase (upper : Bool) (c : Char) : Char :=
  if upper && (97 ≤ c.toNat && c.toNat ≤ 122) then Char.ofNat (c.toNat - 32)
  else if !upper && (65 ≤ c.toNat && c.toNat ≤ 90) then Char.ofNat (c.toNat + 32)
  else c

/-- The second loop of `canonicalMIMEHeaderKey`: first letter and every
letter after a dash in upper case, the others in lower case. -/
def canonLoop : Bool → List Char → List Char
  | _, [] => []
  | upper, c :: cs => recase upper c :: canonLoop (recase upper c == '-') cs

/-- Go `textproto.canonicalMIMEHeaderKey`: a key holding a byte that is not
a valid header field byte (a space included) is returned unchanged; any other
key is re-cased.  (The final lookup in the table of common headers returns an
equal string and is left out.) -/
def canonicalMIMEHeaderKey (a : List Char) : List Char :=
  if a.all validHeaderFieldByte then canonLoop true a else a

/-- Go `textproto.CanonicalMIMEHeaderKey`. -/
def CanonicalMIMEHeaderKey (s : String) : String :=
  if needsCanon true s.data then ⟨canonicalMIMEHeaderKey s.data⟩ else s

/-! ## Standard library: `http.Header` -/

/-- Go `http.Header`, a `map[string][]string`. -/
abbrev Header := AList (fun _ : String => List String)

/-- Go `http.TrailerPrefix`. -/
def TrailerPrefix : String := "Trailer:"

/-- Go `Header.Set`: `h[CanonicalMIMEHeaderKey(key)] = []string{value}`. -/
def Header.Set (h : Header) (key value : String) : Header :=
  AList.insert (CanonicalMIMEHeaderKey key) [value] h

/-- Go `Header.Values`: `h[CanonicalMIMEHeaderKey(key)]`, the nil slice when
the key is absent. -/
def Header.Values (h : Header) (key : String) : List String :=
  (AList.lookup (CanonicalMIMEHeaderKey key) h).getD []

/-- The keys of the map in the order a `range` loop visits them. -/
def Header.rangeKeys (h : Header) : List String :=
  h.keys

/-! ## Standard library: `url.URL.EscapedPath` (package `net/url`, mode `encodePath`) -/

/-- The bytes of a Go string. -/
def bytesOf (s : String) : List Nat :=
  (s.data.flatMap String.utf8EncodeChar).map UInt8.toNat

/-- Go `url.ishex`. -/
def ishex (c : Nat) : Bool :=
  (48 ≤ c && c ≤ 57) || (97 ≤ c && c ≤ 102) || (65 ≤ c && c ≤ 70)

/-- Go `url.unhex`. -/
def unhex (c : Nat) : Nat :=
  if 48 ≤ c && c ≤ 57 then c - 48
  else if 97 ≤ c && c ≤ 102 then c - 97 + 10
  else if 65 ≤ c && c ≤ 70 then c - 65 + 10
  else 0

/-- Go `url.shouldEscape(c, encodePath)`: letters, digits, `- _ . ~` and the
reserved `$ & + , / : ; = @` stay; `?` and everything else is escaped. -/
def shouldEscape (c : Nat) : Bool :=
  if (97 ≤ c && c ≤ 122) || (65 ≤ c && c ≤ 90) || (48 ≤ c && c ≤ 57) then false
  else if [45, 95, 46, 126].contains c then false
  else if [36, 38, 43, 44, 47, 58, 59, 61, 63, 64].contains c then c == 63
  else true

/-- Go `url.validEncoded(s, encodePath)`: the sub-delimiters
`! $ & ' ( ) * + , ; = : @`, the brackets and `%` are accepted, any other byte
must be one that `shouldEscape` leaves alone. -/
def validEncoded (s : List Nat) : Bool :=
  s.all fun c =>
    [33, 36, 38, 39, 40, 41, 42, 43, 44, 59, 61, 58, 64, 91, 93, 37].contains c ||
      !shouldEscape c

/-- First loop of Go `url.unescape(s, encodePath)`: every `%` is followed by
two hex digits (otherwise `unescape` returns an `EscapeError`). -/
def unescapeOk : List Nat → Bool
  | [] => true
  | c :: rest =>
    if c == 37 then
      match rest with
      | d :: e :: rest2 => ishex d && ishex e && unescapeOk rest2
      | _ => false
    else unescapeOk rest

/-- Second loop of Go `url.unescape(s, encodePath)`, run on a string that
passed the first: `%XY` becomes the byte `unhex(X)<<4 | unhex(Y)`, every other
byte (a `+` included) is copied. -/
def unescapeBytes : List Nat → List Nat
  | [] => []
  | c :: rest =>
    if c == 37 then
      match rest with
      | d :: e :: rest2 => (unhex d * 16 + unhex e) :: unescapeBytes rest2
      | _ => []
    else c :: unescapeBytes rest

/-- Go `url.unescape(s, encodePath)`; `none` is the error result. -/
def unescape (s : List Nat) : Option (List Nat) :=
  if unescapeOk s then some (unescapeBytes s) else none

/-- The digit table `upperhex` of package `net/url`. -/
def upperhex (n : Nat) : Char :=
  if n < 10 then Char.ofNat (48 + n) else Char.ofNat (55 + n)

/-- Go `url.escape(s, encodePath)`: a byte that `shouldEscape` rejects is
written as `%` and two upper-case hex digits. -/
def escape (s : List Nat) : String :=
  ⟨s.flatMap fun c =>
    if shouldEscape c then ['%', upperhex (c / 16), upperhex (c % 16)] else [Char.ofNat c]⟩

/-! ## The transaction state -/

/-- Go `url.URL`, the fields read or written by the host.  `Path` is the
decoded path, as bytes. -/
structure URL where
  Path : List Nat
  RawPath : String
  ForceQuery : Bool
  RawQuery : String
  deriving DecidableEq, Repr

/-- Go `(*URL).EscapedPath`: `RawPath` when it is a valid encoding of `Path`,
otherwise the computed escaping of `Path`. -/
def URL.EscapedPath (u : URL) : String :=
  if u.RawPath ≠ "" ∧ validEncoded (bytesOf u.RawPath) = true ∧
      unescape (bytesOf u.RawPath) = some u.Path then u.RawPath
  else if u.Path = bytesOf "*" then "*"
  else escape u.Path

/-! ## Standard library: `url.ParseRequestURI` (package `net/url`, Go 1.19)

The parser is `parse(rawURL, viaRequest = true)`.  Of the resulting `URL` only
the four fields of `URL` above are kept; the scheme, the opaque part, the user
and the host are computed by Go but never read by the host methods, so of them
only what decides success or failure is modelled. -/

/-- The errors that `url.ParseRequestURI` wraps in its `*url.Error`:
"net/url: invalid control character in URL", "empty url", "missing protocol
scheme", "invalid URI for request", an `EscapeError`, an `InvalidHostError`,
"missing ']' in host", "invalid port ... after host" and "net/url: invalid
userinfo". -/
inductive ParseError where
  | controlCharacter
  | emptyURL
  | missingScheme
  | invalidURIForRequest
  | escapeError
  | invalidHost
  | missingBracket
  | invalidPort
  | invalidUserinfo
  deriving DecidableEq, Repr

/-- Go `url.stringContainsCTLByte`: some byte is `< ' '` or is `0x7f`. -/
def stringContainsCTLByte (s : List Char) : Bool :=
  s.any fun c => decide (c.toNat < 32) || c.toNat == 127

/-- Go `strings.Cut(s, sep)` for a one-byte separator: the text before and
after the first `sep`, and whether `sep` was found. -/
def cut (sep : Char) : List Char → List Char × List Char × Bool
  | [] => ([], [], false)
  | c :: cs =>
    if c == sep then ([], cs, true)
    else
      let r := cut sep cs
      (c :: r.1, r.2.1, r.2.2)

/-- Go `strings.Index(s, sep)` for a one-byte separator; `none` is `-1`. -/
def indexByte (sep : Char) : List Char → Option Nat
  | [] => none
  | c :: cs => if c == sep then some 0 else (indexByte sep cs).map (· + 1)

/-- Go `strings.LastIndex(s, sep)` for a one-byte separator; `none` is `-1`. -/
def lastIndexByte (sep : Char) : List Char → Option Nat
  | [] => none
  | c :: cs =>
    match lastIndexByte sep cs with
    | some i => some (i + 1)
    | none => if c == sep then some 0 else none

/-- Go `strings.Index(s, sub)`; `none` is `-1`. -/
def indexSub (sub : List Char) : List Char → Option Nat
  | [] => if sub.isEmpty then some 0 else none
  | c :: cs =>
    if sub.isPrefixOf (c :: cs) then some 0 else (indexSub sub cs).map (· + 1)

/-- The loop of Go `url.getScheme` from index `i` on, `rest` being
`rawURL[i:]`: the scheme and what follows its colon. -/
def getSchemeLoop (rawURL : List Char) : Nat → List Char →
    Except ParseError (List Char × List Char)
  | _, [] => .ok ([], rawURL)
  | i, c :: cs =>
    let n := c.toNat
    if (97 ≤ n && n ≤ 122) || (65 ≤ n && n ≤ 90) then getSchemeLoop rawURL (i + 1) cs
    else if (48 ≤ n && n ≤ 57) || c == '+' || c == '-' || c == '.' then
      if i == 0 then .ok ([], rawURL) else getSchemeLoop rawURL (i + 1) cs
    else if c == ':' then
      if i == 0 then .error .missingScheme else .ok (rawURL.take i, cs)
    else .ok ([], rawURL)

/-- Go `url.getScheme`. -/
def getScheme (rawURL : List Char) : Except ParseError (List Char × List Char) :=
  getSchemeLoop rawURL 0 rawURL

/-- Go `url.shouldEscape(c, encodeHost)` (the same for `encodeZone`):
letters, digits, `! $ & ' ( ) * + , ; = : [ ] < > "` and `- _ . ~` stay. -/
def shouldEscapeHost (c : Nat) : Bool :=
  if (97 ≤ c && c ≤ 122) || (65 ≤ c && c ≤ 90) || (48 ≤ c && c ≤ 57) then false
  else if [33, 36, 38, 39, 40, 41, 42, 43, 44, 59, 61, 58, 91, 93, 60, 62, 34].contains c then
    false
  else if [45, 95, 46, 126].contains c then false
  else true

/-- The error, if any, of Go `url.unescape(s, mode)` for `mode = encodeHost`
(`zone = false`) and `mode = encodeZone` (`zone = true`): a `%` needs two hex
digits; in a host only `%25` and escapes of bytes `≥ 0x80` are allowed, in a
zone only `%25`, `%20` and escapes of bytes that a host may hold; an ASCII
byte written directly must be one that a host may hold. -/
def unescapeHostError (zone : Bool) : List Nat → Option ParseError
  | [] => none
  | c :: rest =>
    if c == 37 then
      match rest with
      | d :: e :: rest2 =>
        if !(ishex d && ishex e) then some .escapeError
        else if !zone && decide (unhex d < 8) && !(d == 50 && e == 53) then some .escapeError
        else if zone && !(d == 50 && e == 53) && !(unhex d * 16 + unhex e == 32) &&
            shouldEscapeHost (unhex d * 16 + unhex e) then some .escapeError
        else unescapeHostError zone rest2
      | _ => some .escapeError
    else if decide (c < 128) && shouldEscapeHost c then some .invalidHost
    else unescapeHostError zone rest

/-- The bytes of a list of characters. -/
def bytesOfChars (s : List Char) : List Nat :=
  bytesOf ⟨s⟩

/-- Go `url.validOptionalPort`: empty, or a colon followed by digits. -/
def validOptionalPort : List Char → Bool
  | [] => true
  | c :: cs => c == ':' && cs.all fun b => decide (48 ≤ b.toNat) && decide (b.toNat ≤ 57)

/-- Go `url.validUserinfo`: letters, digits and
`- . _ : ~ ! $ & ' ( ) * + , ; = % @`. -/
def validUserinfo (s : List Char) : Bool :=
  s.all fun r =>
    let n := r.toNat
    (65 ≤ n && n ≤ 90) || (97 ≤ n && n ≤ 122) || (48 ≤ n && n ≤ 57) ||
      [45, 46, 95, 58, 126, 33, 36, 38, 39, 40, 41, 42, 43, 44, 59, 61, 37, 64].contains n

/-- The error, if any, of Go `url.parseHost`. -/
def parseHostError (host : List Char) : Option ParseError :=
  if host.head? == some '[' then
    match lastIndexByte ']' host with
    | none => some .missingBracket
    | some i =>
      if !validOptionalPort (host.drop (i + 1)) then some .invalidPort
      else
        match indexSub ['%', '2', '5'] (host.take i) with
        | some zone =>
          match unescapeHostError false (bytesOfChars (host.take zone)) with
          | some e => some e
          | none =>
            match unescapeHostError true (bytesOfChars ((host.take i).drop zone)) with
            | some e => some e
            | none => unescapeHostError false (bytesOfChars (host.drop i))
        | none => unescapeHostError false (bytesOfChars host)
  else
    match lastIndexByte ':' host with
    | some i =>
      if !validOptionalPort (host.drop i) then some .invalidPort
      else unescapeHostError false (bytesOfChars host)
    | none => unescapeHostError false (bytesOfChars host)

/-- The error, if any, of Go `url.parseAuthority`: the host after the last
`@` is parsed first, then the user information before it is validated and
unescaped (mode `encodeUserPassword`, which fails as `encodePath` does). -/
def parseAuthorityError (authority : List Char) : Option ParseError :=
  let i := lastIndexByte '@' authority
  let hostError :=
    match i with
    | none => parseHostError authority
    | some i => parseHostError (authority.drop (i + 1))
  match hostError with
  | some e => some e
  | none =>
    match i with
    | none => none
    | some i =>
      let userinfo := authority.take i
      if !validUserinfo userinfo then some .invalidUserinfo
      else if !userinfo.contains ':' then
        if unescapeOk (bytesOfChars userinfo) then none else some .escapeError
      else
        let c := cut ':' userinfo
        if !unescapeOk (bytesOfChars c.1) then some .escapeError
        else if !unescapeOk (bytesOfChars c.2.1) then some .escapeError
        else none

/-- Go `(*URL).setPath`: `Path` is the unescaped `p`; `RawPath` is `p` unless
the default escaping of `Path` gives `p` back. -/
def URL.setPath (u : URL) (p : String) : Except ParseError URL :=
  match unescape (bytesOf p) with
  | none => .error .escapeError
  | some path => .ok { u with Path := path, RawPath := if p = escape path then "" else p }

/-- Go `url.parse(rawURL, true)`. -/
def parse (rawURL : String) : Except ParseError URL :=
  if stringContainsCTLByte rawURL.data then .error .controlCharacter
  else if rawURL = "" then .error .emptyURL
  else if rawURL = "*" then
    .ok { Path := bytesOf "*", RawPath := "", ForceQuery := false, RawQuery := "" }
  else
    match getScheme rawURL.data with
    | .error e => .error e
    | .ok (scheme, rest0) =>
      let forced := rest0.getLast? == some '?' && rest0.count '?' == 1
      let rest := if forced then rest0.dropLast else (cut '?' rest0).1
      let rawQuery : String := if forced then "" else ⟨(cut '?' rest0).2.1⟩
      let url : URL := { Path := [], RawPath := "", ForceQuery := forced, RawQuery := rawQuery }
      if !(rest.head? == some '/') then
        if scheme ≠ [] then .ok url else .error .invalidURIForRequest
      else if scheme ≠ [] && (rest.take 2 == ['/', '/']) then
        let authority0 := rest.drop 2
        let authority :=
          match indexByte '/' authority0 with
          | some i => authority0.take i
          | none => authority0
        let rest1 :=
          match indexByte '/' authority0 with
          | some i => authority0.drop i
          | none => []
        match parseAuthorityError authority with
        | some e => .error e
        | none => url.setPath ⟨rest1⟩
      else url.setPath ⟨rest⟩

/-- Go `url.ParseRequestURI`. -/
def ParseRequestURI (rawURL : String) : Except ParseError URL :=
  parse rawURL

/-- Go `http.Request`, the fields read or written by the host. -/
structure Request where
  Method : String
  URL : URL
  Proto : String
  Header : Header
  Body : List UInt8
  Host : String

/-- The transport's own `http.ResponseWriter` (pass-through sink): its header
map, whether and which status line has gone out, and the body bytes sent. -/
structure nativeResponseWriter where
  header : Header
  wroteHeader : Bool
  status : Nat
  sent : List UInt8

/-- Modelled from the spec: the declaration of `bufferingResponseWriter` is
not part of `host.go`.  The buffering variant of the response sink holds the
status code (`0` = unset), the header collection, in which trailers are
co-located, and the buffered body. -/
structure bufferingResponseWriter where
  header : Header
  statusCode : Nat
  body : List UInt8

/-- The response sink `s.w`, an `http.ResponseWriter` that either is a
`*bufferingResponseWriter` or is not. -/
inductive ResponseWriter where
  | buffering (w : bufferingResponseWriter)
  | passThrough (w : nativeResponseWriter)

/-- Modelled from the spec: the declaration of `requestState` is not part of
`host.go`.  It holds the request `r`, the response sink `w` and the feature
flags of the transaction. -/
structure requestState where
  r : Request
  w : ResponseWriter
  features : Nat

/-- The result of a mutating host call that can panic: the transaction as
the call left it, and the value it panicked with, if it did. -/
structure Outcome where
  state : requestState
  panicked : Option ParseError

/-- Modelled from the spec: `requestState.enableFeatures` is not part of
`host.go`; it merges the flags into the negotiated set of the transaction. -/
def requestState.enableFeatures (s : requestState) (features : Nat) : requestState :=
  { s with features := s.features ||| features }

/-- Method `Header()` of the response sink. -/
def ResponseWriter.Header : ResponseWriter → Wasm.Header
  | .buffering w => w.header
  | .passThrough w => w.header

/-- The response sink after its header map was mutated into `h`. -/
def ResponseWriter.withHeader : ResponseWriter → Wasm.Header → ResponseWriter
  | .buffering w, h => .buffering { w with header := h }
  | .passThrough w, h => .passThrough { w with header := h }

/-- Go `http.ResponseWriter.WriteHeader` of the transport: the first call
sends the status line, later calls are ignored. -/
def nativeResponseWriter.WriteHeader (w : nativeResponseWriter) (code : Nat) :
    nativeResponseWriter :=
  if w.wroteHeader then w else { w with wroteHeader := true, status := code }

/-- Go `http.ResponseWriter.Write` of the transport: sends the bytes, after
an implicit `WriteHeader(200)` when no status line has gone out. -/
def nativeResponseWriter.Write (w : nativeResponseWriter) (b : List UInt8) :
    nativeResponseWriter :=
  let w1 := w.WriteHeader 200
  { w1 with sent := w1.sent ++ b }

/-- Modelled from the spec: `bufferingResponseWriter.Write` is not part of
`host.go`; a write appends to the buffered body. -/
def bufferingResponseWriter.Write (w : bufferingResponseWriter) (b : List UInt8) :
    bufferingResponseWriter :=
  { w with body := w.body ++ b }

/-- Method `Write` of the response sink, as called through the `io.Writer`
that `ResponseBodyWriter` returns (in both branches it is `s.w` itself). -/
def ResponseWriter.Write : ResponseWriter → List UInt8 → ResponseWriter
  | .buffering w, b => .buffering (w.Write b)
  | .passThrough w, b => .passThrough (w.Write b)

/-! ## Trailer codec (`trailerNames`, `getTrailer`, `setTrailer`) -/

/-- `trailerNames`: ranges over the header map and appends every key that has
the trailer prefix, with the prefix sliced off. -/
def trailerNames (header : Header) : List String :=
  header.rangeKeys.foldl
    (fun names n =>
      if HasPrefix n TrailerPrefix then names ++ [sliceFrom n TrailerPrefix.length]
      else names)
    []

/-- `getTrailer`: the first of `header.Values(http.TrailerPrefix + name)`. -/
def getTrailer (header : Header) (name : String) : String × Bool :=
  match header.Values (TrailerPrefix ++ name) with
  | [] => ("", false)
  | v :: _ => (v, true)

/-- `setTrailer`: `header.Set(http.TrailerPrefix+name, value)`. -/
def setTrailer (header : Header) (name value : String) : Header :=
  header.Set (TrailerPrefix ++ name) value

/-! ## Host methods: features -/

/-- `host.EnableFeatures`.  The context either carries the `*requestState` of
an active transaction (`some s`) or does not (`none`, a call during
initialisation); the result is the context after the call and the returned
features. -/
def EnableFeatures (ctx : Option requestState) (features : Nat) : Option requestState × Nat :=
  match ctx with
  | some s => (some (s.enableFeatures features), features)
  | none => (none, features)

/-! ## Host methods: the request -/

/-- `host.GetMethod`. -/
def GetMethod (s : requestState) : String :=
  s.r.Method

/-- `host.SetMethod`. -/
def SetMethod (s : requestState) (method : String) : requestState :=
  { s with r := { s.r with Method := method } }

/-- `host.GetURI`. -/
def GetURI (s : requestState) : String :=
  let u := s.r.URL
  let result := u.EscapedPath
  let result := if result = "" then "/" else result
  if u.ForceQuery || u.RawQuery ≠ "" then result ++ ("?" ++ u.RawQuery) else result

/-- `host.SetURI`: `panic(err)` before anything is written when
`url.ParseRequestURI` fails, otherwise the four assignments to `r.URL`. -/
def SetURI (s : requestState) (uri : String) : Outcome :=
  match ParseRequestURI uri with
  | .error err => { state := s, panicked := some err }
  | .ok u =>
    { state :=
        { s with
          r := { s.r with
            URL := { s.r.URL with
              RawPath := u.RawPath, Path := u.Path, ForceQuery := u.ForceQuery,
              RawQuery := u.RawQuery } } },
      panicked := none }

/-- `host.GetProtocolVersion`. -/
def GetProtocolVersion (s : requestState) : String :=
  s.r.Proto

/-- `host.GetRequestHeaderNames`: a slice of `len(r.Header)` strings (one more
when `r.Host` is set, for `"Host"`) is allocated at full length, the keys
without the trailer prefix are stored at indexes `i = 0, 1, ...`, and the whole
slice is sorted. -/
def GetRequestHeaderNames (s : requestState) : List String :=
  let r := s.r
  let count := r.Header.rangeKeys.length
  let start : List String × Nat :=
    if r.Host ≠ "" then ((List.replicate (count + 1) "").set 0 "Host", 1)
    else (List.replicate count "", 0)
  let filled := r.Header.rangeKeys.foldl
    (fun (acc : List String × Nat) n =>
      if HasPrefix n TrailerPrefix then acc else (acc.1.set acc.2 n, acc.2 + 1))
    start
  sortStrings filled.1

/-- `host.GetRequestHeader`. -/
def GetRequestHeader (s : requestState) (name : String) : String × Bool :=
  if CanonicalMIMEHeaderKey name = "Host" then (s.r.Host, decide (s.r.Host ≠ ""))
  else
    match s.r.Header.Values name with
    | [] => ("", false)
    | v :: _ => (v, true)

/-- `host.SetRequestHeader`. -/
def SetRequestHeader (s : requestState) (name value : String) : requestState :=
  { s with r := { s.r with Header := s.r.Header.Set name value } }

/-! ## Host methods: status code and response body -/

/-- `host.GetStatusCode`; `none` when the type assertion
`s.w.(*bufferingResponseWriter)` panics. -/
def GetStatusCode (s : requestState) : Option Nat :=
  match s.w with
  | .buffering w => if w.statusCode = 0 then some 200 else some w.statusCode
  | .passThrough _ => none

/-- `host.SetStatusCode`. -/
def SetStatusCode (s : requestState) (statusCode : Nat) : requestState :=
  match s.w with
  | .buffering w => { s with w := .buffering { w with statusCode := statusCode } }
  | .passThrough w => { s with w := .passThrough (w.WriteHeader statusCode) }

/-- `host.ResponseBodyReader`: the bytes that the returned reader yields when
read to the end; `none` when the type assertion
`s.w.(*bufferingResponseWriter)` panics. -/
def ResponseBodyReader (s : requestState) : Option (List UInt8) :=
  match s.w with
  | .buffering w => some w.body
  | .passThrough _ => none

/-- `host.ResponseBodyWriter`: the transaction after the call.  The returned
`io.Writer` is the sink `s.w` of that transaction in both branches. -/
def ResponseBodyWriter (s : requestState) : requestState :=
  match s.w with
  | .buffering w => { s with w := .buffering { w with body := [] } }
  | .passThrough _ => s

/-- A `Write(b)` on the `io.Writer` that `ResponseBodyWriter` returned. -/
def writeResponseBody (s : requestState) (b : List UInt8) : requestState :=
  { s with w := s.w.Write b }

/-! ## Host methods: request trailers, kept in the header map of the sink -/

/-- `host.GetRequestTrailerNames`. -/
def GetRequestTrailerNames (s : requestState) : List String :=
  trailerNames s.w.Header

/-- `host.GetRequestTrailer`. -/
def GetRequestTrailer (s : requestState) (name : String) : String × Bool :=
  getTrailer s.w.Header name

/-- `host.SetRequestTrailer`. -/
def SetRequestTrailer (s : requestState) (name value : String) : requestState :=
  { s with w := s.w.withHeader (setTrailer s.w.Header name value) }

/-! ## Host methods: response headers and trailers -/

/-- `host.GetResponseHeaderNames`. -/
def GetResponseHeaderNames (s : requestState) : List String :=
  s.w.Header.rangeKeys.foldl
    (fun names n => if HasPrefix n TrailerPrefix then names else names ++ [n])
    []

/-- `host.GetResponseHeader`. -/
def GetResponseHeader (s : requestState) (name : String) : String × Bool :=
  match s.w.Header.Values name with
  | [] => ("", false)
  | v :: _ => (v, true)

/-- `host.SetResponseHeader`. -/
def SetResponseHeader (s : requestState) (name value : String) : requestState :=
  { s with w := s.w.withHeader (s.w.Header.Set name value) }

/-- `host.GetResponseTrailerNames`. -/
def GetResponseTrailerNames (s : requestState) : List String :=
  trailerNames s.w.Header

/-- `host.GetResponseTrailer`. -/
def GetResponseTrailer (s : requestState) (name : String) : String × Bool :=
  getTrailer s.w.Header name

/-- `host.SetResponseTrailer`. -/
def SetResponseTrailer (s : requestState) (name value : String) : requestState :=
  { s with w := s.w.withHeader (setTrailer s.w.Header name value) }

/-! ## Example transactions -/

/-- A header map with one ordinary header and one trailer entry. -/
def exampleHeader : Header :=
  AList.insert "Accept" ["a"] (AList.insert "Trailer:X" ["1"] ∅)

/-- The request `GET /a?x=1` for `example.com` with one header. -/
def exampleRequest : Request :=
  { Method := "GET", URL := { Path := bytesOf "/a", RawPath := "", ForceQuery := false, RawQuery := "x=1" },
    Proto := "HTTP/1.1", Header := AList.insert "Accept" ["a"] ∅, Body := [],
    Host := "example.com" }

/-- A transaction in buffering mode, nothing buffered yet, whose sink has the
header map `h`. -/
def bufferingExample (h : Header) : requestState :=
  { r := exampleRequest, w := .buffering { header := h, statusCode := 0, body := [] },
    features := 0 }

/-- A transaction in pass-through mode, nothing sent yet, whose sink has the
header map `h`. -/
def passThroughExample (h : Header) : requestState :=
  { r := exampleRequest,
    w := .passThrough { header := h, wroteHeader := false, status := 0, sent := [] },
    features := 0 }

/-! ## Lemmas: the trailer prefix -/

theorem trailerPrefix_length : TrailerPrefix.length = 8 := by
  decide

theorem trailerPrefix_data :
    TrailerPrefix.data = ['T', 'r', 'a', 'i', 'l', 'e', 'r', ':'] := by
  decide

theorem trailerPrefix_append_data (n : String) :
    (TrailerPrefix ++ n).data =
      'T' :: 'r' :: 'a' :: 'i' :: 'l' :: 'e' :: 'r' :: ':' :: n.data := by
  simp [TrailerPrefix]

/-- A key with the trailer prefix is returned unchanged by
`CanonicalMIMEHeaderKey`: the scan stops at the colon. -/
theorem canonical_trailerPrefix_append (n : String) :
    CanonicalMIMEHeaderKey (TrailerPrefix ++ n) = TrailerPrefix ++ n := by
  have h : needsCanon true (TrailerPrefix ++ n).data = false := by
    rw [trailerPrefix_append_data]
    simp [needsCanon, validHeaderFieldByte]
  unfold CanonicalMIMEHeaderKey
  rw [h]
  simp

theorem hasPrefix_trailerPrefix_append (n : String) :
    HasPrefix (TrailerPrefix ++ n) TrailerPrefix = true := by
  simp [HasPrefix, trailerPrefix_length, trailerPrefix_data]

theorem sliceFrom_trailerPrefix_append (n : String) :
    sliceFrom (TrailerPrefix ++ n) TrailerPrefix.length = n := by
  simp [sliceFrom, trailerPrefix_length, trailerPrefix_data]

/-- A string with the trailer prefix is the prefix followed by the slice. -/
theorem eq_append_of_hasPrefix {k : String} (h : HasPrefix k TrailerPrefix = true) :
    k = TrailerPrefix ++ sliceFrom k TrailerPrefix.length := by
  simp only [HasPrefix, Bool.and_eq_true, decide_eq_true_eq, beq_iff_eq] at h
  apply String.ext
  simp only [sliceFrom, String.data_append]
  have h2 := List.take_append_drop TrailerPrefix.length k.data
  rw [h.2] at h2
  exact h2.symm

/-- Slicing the prefix off is injective on the keys that have it. -/
theorem sliceFrom_eq_iff {k n : String} (h : HasPrefix k TrailerPrefix = true) :
    sliceFrom k TrailerPrefix.length = n ↔ k = TrailerPrefix ++ n := by
  constructor
  · intro e
    rw [← e]
    exact eq_append_of_hasPrefix h
  · intro e
    rw [e, sliceFrom_trailerPrefix_append]

/-! ## Lemmas: canonical keys never gain the trailer prefix -/

theorem recase_ne_colon (upper : Bool) (c : Char) (h : validHeaderFieldByte c = true) :
    recase upper c ≠ ':' := by
  unfold recase
  split_ifs with h1 h2
  · simp only [Bool.and_eq_true, decide_eq_true_eq] at h1
    obtain ⟨-, hlo, hhi⟩ := h1
    generalize c.toNat = m at hlo hhi
    interval_cases m <;> decide
  · simp only [Bool.and_eq_true, decide_eq_true_eq] at h2
    obtain ⟨-, hlo, hhi⟩ := h2
    generalize c.toNat = m at hlo hhi
    interval_cases m <;> decide
  · intro e
    rw [e] at h
    revert h
    decide

theorem colon_not_mem_canonLoop (a : List Char) (upper : Bool)
    (h : a.all validHeaderFieldByte = true) : ':' ∉ canonLoop upper a := by
  induction a generalizing upper with
  | nil => simp [canonLoop]
  | cons c cs ih =>
    simp only [List.all_cons, Bool.and_eq_true] at h
    simp only [canonLoop, List.mem_cons, not_or]
    exact ⟨fun e => recase_ne_colon upper c h.1 e.symm, ih _ h.2⟩

theorem colon_mem_of_hasPrefix {k : String} (h : HasPrefix k TrailerPrefix = true) :
    ':' ∈ k.data := by
  simp only [HasPrefix, Bool.and_eq_true, decide_eq_true_eq, beq_iff_eq] at h
  have hm : ':' ∈ List.take TrailerPrefix.length k.data := by
    rw [h.2, trailerPrefix_data]
    decide
  exact List.mem_of_mem_take hm

/-- `CanonicalMIMEHeaderKey` never produces a key with the trailer prefix
from a name that does not have it: a name that is re-cased holds no colon. -/
theorem hasPrefix_canonical_false {n : String} (h : HasPrefix n TrailerPrefix = false) :
    HasPrefix (CanonicalMIMEHeaderKey n) TrailerPrefix = false := by
  unfold CanonicalMIMEHeaderKey
  split_ifs with h1
  · unfold canonicalMIMEHeaderKey
    split_ifs with h2
    · cases hp : HasPrefix ⟨canonLoop true n.data⟩ TrailerPrefix
      · rfl
      · exact absurd (colon_mem_of_hasPrefix hp) (colon_not_mem_canonLoop _ _ h2)
    · exact h
  · exact h

/-! ## Lemmas: the enumeration loops -/

theorem foldl_skip_eq_filter (p : String → Bool) (l acc : List String) :
    l.foldl (fun names n => if p n then names else names ++ [n]) acc =
      acc ++ l.filter (fun n => !p n) := by
  induction l generalizing acc with
  | nil => simp
  | cons a l ih =>
    simp only [List.foldl_cons, ih, List.filter_cons]
    by_cases h : p a <;> simp [h]

theorem foldl_strip_eq_map (p : String → Bool) (f : String → String) (l acc : List String) :
    l.foldl (fun names n => if p n then names ++ [f n] else names) acc =
      acc ++ (l.filter p).map f := by
  induction l generalizing acc with
  | nil => simp
  | cons a l ih =>
    simp only [List.foldl_cons, ih, List.filter_cons]
    by_cases h : p a <;> simp [h]

theorem filter_erase_of_false (p : String → Bool) (a : String) (h : p a = false)
    (l : List String) : (l.erase a).filter p = l.filter p := by
  induction l with
  | nil => simp
  | cons b l ih =>
    by_cases e : b = a
    · subst e
      simp [h]
    · rw [List.erase_cons_tail (by simpa using e)]
      simp [List.filter_cons, ih]

theorem trailerNames_eq (header : Header) :
    trailerNames header =
      (header.keys.filter (fun n => HasPrefix n TrailerPrefix)).map
        (fun n => sliceFrom n TrailerPrefix.length) := by
  simp [trailerNames, Header.rangeKeys, foldl_strip_eq_map]

theorem getResponseHeaderNames_eq (s : requestState) :
    GetResponseHeaderNames s =
      s.w.Header.keys.filter (fun n => !HasPrefix n TrailerPrefix) := by
  simp [GetResponseHeaderNames, Header.rangeKeys, foldl_skip_eq_filter]

@[simp]
theorem header_withHeader (w : ResponseWriter) (h : Header) : (w.withHeader h).Header = h := by
  cases w <;> rfl

/-! ## Lemmas: `Header.Set` and `Header.Values` -/

theorem keys_set (h : Header) (key value : String) :
    (h.Set key value).keys =
      CanonicalMIMEHeaderKey key :: h.keys.erase (CanonicalMIMEHeaderKey key) := by
  simp [Header.Set, AList.keys_insert]

theorem values_set_same (h : Header) (key value : String) :
    (h.Set key value).Values key = [value] := by
  simp [Header.Set, Header.Values, AList.lookup_insert]

theorem values_set_other (h : Header) (key value other : String)
    (hne : CanonicalMIMEHeaderKey other ≠ CanonicalMIMEHeaderKey key) :
    (h.Set key value).Values other = h.Values other := by
  simp [Header.Set, Header.Values, AList.lookup_insert_ne hne]

/-! ## Response trailers and response headers -/

/-- C1: for every transaction (whatever its response header collection held
before), every trailer name `n` and every value `v`: after
`SetResponseTrailer(n, v)`, `GetResponseTrailer(n)` returns `(v, true)` and `n`
occurs exactly once in `GetResponseTrailerNames()`. -/
theorem setResponseTrailer_then_get (s : requestState) (n v : String) :
    GetResponseTrailer (SetResponseTrailer s n v) n = (v, true) ∧
      (GetResponseTrailerNames (SetResponseTrailer s n v)).count n = 1 := by
  constructor
  · simp [GetResponseTrailer, SetResponseTrailer, getTrailer, setTrailer, values_set_same]
  · have hnot : n ∉ ((s.w.Header.keys.erase (TrailerPrefix ++ n)).filter
        (fun k => HasPrefix k TrailerPrefix)).map
        (fun k => sliceFrom k TrailerPrefix.length) := by
      intro hmem
      obtain ⟨k, hk, hkn⟩ := List.mem_map.1 hmem
      obtain ⟨hk1, hk2⟩ := List.mem_filter.1 hk
      have hkeq : k = TrailerPrefix ++ n := (sliceFrom_eq_iff hk2).1 hkn
      rw [hkeq] at hk1
      exact ((AList.keys_nodup s.w.Header).mem_erase_iff.1 hk1).1 rfl
    simp only [GetResponseTrailerNames, SetResponseTrailer, setTrailer, header_withHeader,
      trailerNames_eq, keys_set, canonical_trailerPrefix_append, List.filter_cons,
      hasPrefix_trailerPrefix_append, if_true, List.map_cons,
      sliceFrom_trailerPrefix_append, List.count_cons_self]
    rw [List.count_eq_zero_of_not_mem hnot]

/-- C3: for every transaction, every header name `n` and every value `v`:
after `SetResponseHeader(n, v)`, `GetResponseHeader(n)` returns `(v, true)`,
whatever values were stored under `n` before. -/
theorem setResponseHeader_then_get (s : requestState) (n v : String) :
    GetResponseHeader (SetResponseHeader s n v) n = (v, true) ∧
      (SetResponseHeader s n v).w.Header.Values n = [v] := by
  simp [GetResponseHeader, SetResponseHeader, values_set_same]

/-- C4: `GetResponseHeaderNames` returns exactly the keys of the response
header collection that do not begin with the trailer prefix, each once; so no
returned name carries the prefix, and the entry stored by
`SetResponseTrailer(n, v)` is not enumerated. -/
theorem getResponseHeaderNames_spec (s : requestState) (n v : String) :
    (∀ x, x ∈ GetResponseHeaderNames s ↔
        x ∈ s.w.Header.keys ∧ HasPrefix x TrailerPrefix = false) ∧
      (GetResponseHeaderNames s).Nodup ∧
      (∀ x ∈ GetResponseHeaderNames s, HasPrefix x TrailerPrefix = false) ∧
      TrailerPrefix ++ n ∉ GetResponseHeaderNames (SetResponseTrailer s n v) := by
  refine ⟨?_, ?_, ?_, ?_⟩
  · intro x
    simp [getResponseHeaderNames_eq, List.mem_filter]
  · rw [getResponseHeaderNames_eq]
    exact (AList.keys_nodup _).filter _
  · intro x hx
    rw [getResponseHeaderNames_eq] at hx
    simpa using (List.mem_filter.1 hx).2
  · intro hmem
    rw [getResponseHeaderNames_eq] at hmem
    have := (List.mem_filter.1 hmem).2
    simp [hasPrefix_trailerPrefix_append] at this

/-- C6: for every transaction, every trailer name `n` and every value `v`,
`SetResponseTrailer(n, v)` leaves the ordinary header enumeration unchanged:
`GetResponseHeaderNames()` returns the same names (up to order) before and
after the call. -/
theorem setResponseTrailer_headerNames (s : requestState) (n v : String) :
    (GetResponseHeaderNames (SetResponseTrailer s n v)).Perm (GetResponseHeaderNames s) := by
  have h : (fun k => !HasPrefix k TrailerPrefix) (TrailerPrefix ++ n) = false := by
    simp [hasPrefix_trailerPrefix_append]
  have e : GetResponseHeaderNames (SetResponseTrailer s n v) = GetResponseHeaderNames s := by
    simp only [getResponseHeaderNames_eq, SetResponseTrailer, setTrailer, header_withHeader,
      keys_set, canonical_trailerPrefix_append, List.filter_cons]
    rw [filter_erase_of_false _ _ h]
    simp [hasPrefix_trailerPrefix_append]
  rw [e]

/-- C5 (as stated, refuted): on a transaction without trailers,
`SetResponseHeader("Trailer:X", "1")` creates the trailer `X`; the trailer view
before and after the call differs. -/
theorem setResponseHeader_trailer_view_changes :
    GetResponseTrailer (SetResponseHeader (bufferingExample ∅) "Trailer:X" "1") "X" ≠
        GetResponseTrailer (bufferingExample ∅) "X" ∧
      GetResponseTrailer (bufferingExample ∅) "X" = ("", false) ∧
      GetResponseTrailer (SetResponseHeader (bufferingExample ∅) "Trailer:X" "1") "X" =
        ("1", true) ∧
      GetResponseTrailerNames (bufferingExample ∅) = [] ∧
      GetResponseTrailerNames (SetResponseHeader (bufferingExample ∅) "Trailer:X" "1") =
        ["X"] := by
  decide

/-- C5 (amended): for every transaction, every header name `n` that does not
begin with the trailer prefix and every value `v`, `SetResponseHeader(n, v)`
leaves the trailer view unchanged: `GetResponseTrailerNames()` returns the same
names (up to order) and `GetResponseTrailer(m)` the same result for every `m`. -/
theorem setResponseHeader_trailer_view (s : requestState) (n v : String)
    (hn : HasPrefix n TrailerPrefix = false) :
    (GetResponseTrailerNames (SetResponseHeader s n v)).Perm (GetResponseTrailerNames s) ∧
      ∀ m, GetResponseTrailer (SetResponseHeader s n v) m = GetResponseTrailer s m := by
  have hk := hasPrefix_canonical_false hn
  constructor
  · have e : GetResponseTrailerNames (SetResponseHeader s n v) = GetResponseTrailerNames s := by
      simp only [GetResponseTrailerNames, SetResponseHeader, header_withHeader,
        trailerNames_eq, keys_set, List.filter_cons, hk]
      rw [filter_erase_of_false (fun k => HasPrefix k TrailerPrefix) _ hk]
      simp
    rw [e]
  · intro m
    have hne : CanonicalMIMEHeaderKey (TrailerPrefix ++ m) ≠ CanonicalMIMEHeaderKey n := by
      rw [canonical_trailerPrefix_append]
      intro e
      rw [← e, hasPrefix_trailerPrefix_append] at hk
      exact Bool.noConfusion hk
    simp only [GetResponseTrailer, SetResponseHeader, header_withHeader, getTrailer]
    rw [values_set_other _ _ _ _ hne]

/-- The amended C5 at a transaction with the trailer `X` and the header name
`content-type`. -/
theorem setResponseHeader_trailer_view_witness :
    HasPrefix "content-type" TrailerPrefix = false ∧
      GetResponseTrailer (SetResponseHeader (bufferingExample exampleHeader) "content-type" "t")
          "X" =
        GetResponseTrailer (bufferingExample exampleHeader) "X" :=
  ⟨by decide,
    (setResponseHeader_trailer_view (bufferingExample exampleHeader) "content-type" "t"
      (by decide)).2 "X"⟩

/-! ## Request header enumeration -/

theorem length_fill (l : List String) (acc : List String × Nat) :
    (l.foldl
        (fun (acc : List String × Nat) n =>
          if HasPrefix n TrailerPrefix then acc else (acc.1.set acc.2 n, acc.2 + 1))
        acc).1.length = acc.1.length := by
  induction l generalizing acc with
  | nil => rfl
  | cons a l ih =>
    rw [List.foldl_cons, ih]
    split_ifs <;> simp

/-- The slice that `GetRequestHeaderNames` returns always has one element per
key of the header map, the keys with the trailer prefix included, and one more
when `r.Host` is set. -/
theorem length_getRequestHeaderNames (s : requestState) :
    (GetRequestHeaderNames s).length =
      s.r.Header.keys.length + (if s.r.Host ≠ "" then 1 else 0) := by
  unfold GetRequestHeaderNames sortStrings
  simp only [List.length_insertionSort, length_fill, Header.rangeKeys]
  split_ifs <;> simp

/-- C2 (code defect): after `SetRequestHeader("Trailer:X", "1")` on the request
`GET /a?x=1` for `example.com` with the header `Accept`,
`GetRequestHeaderNames` returns `["", "Accept", "Host"]`: the slot allocated
for the skipped trailer key stays in the slice as an empty string, where the
claim promises the names `Accept` and `Host` and nothing else. -/
theorem getRequestHeaderNames_keeps_empty_slot :
    GetRequestHeaderNames (SetRequestHeader (bufferingExample ∅) "Trailer:X" "1") =
      ["", "Accept", "Host"] := by
  decide

/-! ## Status code and response body -/

/-- C7 (as stated, refuted): after `SetStatusCode(0)` in buffering mode,
`GetStatusCode` returns `200`, not the code `0` that was set. -/
theorem setStatusCode_zero_reads_200 :
    GetStatusCode (SetStatusCode (bufferingExample ∅) 0) = some 200 ∧
      GetStatusCode (SetStatusCode (bufferingExample ∅) 0) ≠ some 0 := by
  decide

/-- C7 (amended): in buffering mode, `GetStatusCode` returns `200` while the
buffered status code is unset (`0`, its value before any `SetStatusCode`); for
every status code `c` other than `0`, after `SetStatusCode(c)`, whatever was
set before, `GetStatusCode` returns `c`; after `SetStatusCode(0)` it
returns `200`. -/
theorem getStatusCode_buffering (r : Request) (w : bufferingResponseWriter) (f : Nat) (c : Nat) :
    GetStatusCode ⟨r, .buffering { w with statusCode := 0 }, f⟩ = some 200 ∧
      (c ≠ 0 → GetStatusCode (SetStatusCode ⟨r, .buffering w, f⟩ c) = some c) ∧
      GetStatusCode (SetStatusCode ⟨r, .buffering w, f⟩ 0) = some 200 := by
  refine ⟨by simp [GetStatusCode], ?_, by simp [GetStatusCode, SetStatusCode]⟩
  intro hc
  simp [GetStatusCode, SetStatusCode, hc]

/-- The amended C7 at `SetStatusCode(201)` followed by `SetStatusCode(404)`. -/
theorem getStatusCode_buffering_witness :
    (404 : Nat) ≠ 0 ∧
      GetStatusCode (SetStatusCode (SetStatusCode (bufferingExample ∅) 201) 404) = some 404 :=
  ⟨by decide,
    (getStatusCode_buffering exampleRequest
      { header := ∅, statusCode := 201, body := [] } 0 404).2.1 (by decide)⟩

/-- C8: in buffering mode, for every previously buffered body and every byte
string `b`: acquiring `ResponseBodyWriter()`, writing `b` to it, then reading
`ResponseBodyReader()` to the end yields exactly `b`; acquiring the writer
resets the body and changes neither the buffered status code nor the headers
(nor the request). -/
theorem responseBodyWriter_then_read (r : Request) (w : bufferingResponseWriter) (f : Nat)
    (b : List UInt8) :
    ResponseBodyReader (writeResponseBody (ResponseBodyWriter ⟨r, .buffering w, f⟩) b) =
        some b ∧
      ResponseBodyWriter ⟨r, .buffering w, f⟩ =
        ⟨r, .buffering { header := w.header, statusCode := w.statusCode, body := [] }, f⟩ ∧
      GetStatusCode (ResponseBodyWriter ⟨r, .buffering w, f⟩) =
        GetStatusCode ⟨r, .buffering w, f⟩ ∧
      (ResponseBodyWriter ⟨r, .buffering w, f⟩).w.Header =
        (⟨r, .buffering w, f⟩ : requestState).w.Header := by
  refine ⟨?_, rfl, rfl, rfl⟩
  simp [ResponseBodyReader, writeResponseBody, ResponseBodyWriter, ResponseWriter.Write,
    bufferingResponseWriter.Write]

/-- C9 (as stated, refuted): in pass-through mode `ResponseBodyReader` does not
return a reader; the type assertion on the sink panics. -/
theorem responseBodyReader_passThrough_panics :
    ResponseBodyReader (passThroughExample ∅) = none ∧
      ResponseBodyReader (passThroughExample ∅) ≠ some [] := by
  constructor
  · rfl
  · intro h
    cases h

/-- C9 (amended): `ResponseBodyReader` returns a reader only in buffering
mode, where it yields the buffered body; in pass-through mode the call panics
for every transaction state. -/
theorem responseBodyReader_by_mode (r : Request) (f : Nat) :
    (∀ w : nativeResponseWriter, ResponseBodyReader ⟨r, .passThrough w, f⟩ = none) ∧
      ∀ w : bufferingResponseWriter, ResponseBodyReader ⟨r, .buffering w, f⟩ = some w.body :=
  ⟨fun _ => rfl, fun _ => rfl⟩

/-! ## The request URI -/

theorem string_append_ne_empty {a : String} (b : String) (h : a ≠ "") : a ++ b ≠ "" := by
  intro e
  apply h
  have hd := congrArg String.data e
  rw [String.data_append] at hd
  exact String.ext (List.append_eq_nil.1 hd).1

theorem getURI_eq (s : requestState) :
    GetURI s =
      if (s.r.URL.ForceQuery || decide (s.r.URL.RawQuery ≠ "")) = true then
        (if s.r.URL.EscapedPath = "" then "/" else s.r.URL.EscapedPath) ++
          ("?" ++ s.r.URL.RawQuery)
      else if s.r.URL.EscapedPath = "" then "/" else s.r.URL.EscapedPath :=
  rfl

/-- C10: for every request URL, `GetURI` returns a non-empty string: the
escaped path of the URL (`"/"` when the escaped path is empty), followed by
`"?"` and the raw query when the raw query is non-empty or the force-query flag
is set, and by nothing otherwise. -/
theorem getURI_spec (s : requestState) :
    GetURI s ≠ "" ∧
      (s.r.URL.ForceQuery = true ∨ s.r.URL.RawQuery ≠ "" →
        GetURI s =
          (if s.r.URL.EscapedPath = "" then "/" else s.r.URL.EscapedPath) ++ "?" ++
            s.r.URL.RawQuery) ∧
      (¬ (s.r.URL.ForceQuery = true ∨ s.r.URL.RawQuery ≠ "") →
        GetURI s = if s.r.URL.EscapedPath = "" then "/" else s.r.URL.EscapedPath) := by
  refine ⟨?_, ?_, ?_⟩
  · rw [getURI_eq]
    split_ifs
    · exact string_append_ne_empty _ (by decide)
    · exact string_append_ne_empty _ (by assumption)
    · decide
    · assumption
  · intro hq
    have hc : (s.r.URL.ForceQuery || decide (s.r.URL.RawQuery ≠ "")) = true := by
      simpa using hq
    rw [getURI_eq, if_pos hc, String.append_assoc]
  · intro hq
    have hc : ¬ ((s.r.URL.ForceQuery || decide (s.r.URL.RawQuery ≠ "")) = true) := by
      simpa using hq
    rw [getURI_eq, if_neg hc]

/-- C10 at the request `GET /a?x=1`. -/
theorem getURI_spec_witness :
    ((bufferingExample ∅).r.URL.ForceQuery = true ∨ (bufferingExample ∅).r.URL.RawQuery ≠ "") ∧
      GetURI (bufferingExample ∅) = "/a?x=1" :=
  ⟨Or.inr (by decide),
    ((getURI_spec (bufferingExample ∅)).2.1 (Or.inr (by decide))).trans (by decide)⟩

/-! ## Setting the request URI -/

/-- C11: for every transaction and every string `u` that does not parse as
a request URI, `SetURI(u)` fails with the parse error (it panics with it) and
leaves the transaction as it was: the URL (path, raw path, query, force-query
flag), the method and the headers of the request are unchanged, so `GetURI`
returns the same value as before the call. -/
theorem setURI_malformed (s : requestState) (u : String) (e : ParseError)
    (h : ParseRequestURI u = .error e) :
    (SetURI s u).panicked = some e ∧
      (SetURI s u).state = s ∧
      (SetURI s u).state.r.URL = s.r.URL ∧
      (SetURI s u).state.r.Method = s.r.Method ∧
      (SetURI s u).state.r.Header = s.r.Header ∧
      GetURI (SetURI s u).state = GetURI s := by
  simp [SetURI, h]

/-- C11 at the malformed URI `/%zz` on the request `GET /a?x=1`. -/
theorem setURI_malformed_witness :
    ParseRequestURI "/%zz" = .error .escapeError ∧
      (SetURI (bufferingExample ∅) "/%zz").panicked = some .escapeError ∧
      GetURI (SetURI (bufferingExample ∅) "/%zz").state = "/a?x=1" :=
  ⟨rfl, (setURI_malformed (bufferingExample ∅) "/%zz" .escapeError rfl).1,
    (setURI_malformed (bufferingExample ∅) "/%zz" .escapeError rfl).2.2.2.2.2.trans
      (by decide)⟩

/-- C12: for every prior transaction and every string `u` that parses as a
request URI, `SetURI(u)` does not panic and afterwards `GetURI` returns the
rendering of the parsed `u` alone: its escaped path (`"/"` if empty), followed
by `"?"` and its raw query when it has or forces a query.  In particular the
result is the same for any two prior transactions. -/
theorem setURI_then_getURI (s s2 : requestState) (u : String) (p : URL)
    (h : ParseRequestURI u = .ok p) :
    (SetURI s u).panicked = none ∧
      GetURI (SetURI s u).state =
        (if (p.ForceQuery || decide (p.RawQuery ≠ "")) = true then
          (if p.EscapedPath = "" then "/" else p.EscapedPath) ++ ("?" ++ p.RawQuery)
        else if p.EscapedPath = "" then "/" else p.EscapedPath) ∧
      GetURI (SetURI s u).state = GetURI (SetURI s2 u).state := by
  have key : ∀ t : requestState, GetURI (SetURI t u).state =
      (if (p.ForceQuery || decide (p.RawQuery ≠ "")) = true then
        (if p.EscapedPath = "" then "/" else p.EscapedPath) ++ ("?" ++ p.RawQuery)
      else if p.EscapedPath = "" then "/" else p.EscapedPath) := by
    intro t
    rw [getURI_eq]
    simp only [SetURI, h, URL.EscapedPath]
  refine ⟨by simp [SetURI, h], key s, ?_⟩
  rw [key s, key s2]

/-- C12 at `u = "/a%2Fb?x"`, set on the request `GET /a?x=1`. -/
theorem setURI_then_getURI_witness :
    ParseRequestURI "/a%2Fb?x" =
        .ok { Path := bytesOf "/a/b", RawPath := "/a%2Fb", ForceQuery := false, RawQuery := "x" } ∧
      GetURI (SetURI (bufferingExample ∅) "/a%2Fb?x").state = "/a%2Fb?x" :=
  ⟨rfl,
    ((setURI_then_getURI (bufferingExample ∅) (bufferingExample ∅) "/a%2Fb?x"
      { Path := bytesOf "/a/b", RawPath := "/a%2Fb", ForceQuery := false, RawQuery := "x" }
      rfl).2.1).trans (by decide)⟩

/-! ## Feature negotiation -/

/-- C13 (as stated, refuted): on a transaction whose negotiated set is `1`,
`EnableFeatures(2)` leaves the negotiated set `3` behind but returns `2`, the
requested flags, not the negotiated set. -/
theorem enableFeatures_returns_requested_not_merged :
    (EnableFeatures (some { bufferingExample ∅ with features := 1 }) 2).2 = 2 ∧
      (EnableFeatures (some { bufferingExample ∅ with features := 1 }) 2).1.map
          (fun s => s.features) = some 3 ∧
      (EnableFeatures (some { bufferingExample ∅ with features := 1 }) 2).1.map
          (fun s => s.features) ≠
        some (EnableFeatures (some { bufferingExample ∅ with features := 1 }) 2).2 := by
  decide

/-- C13 (amended): `EnableFeatures` returns the requested flags unchanged,
with or without an active transaction; when a transaction is active it merges
the requested flags into the negotiated set of the transaction and changes
nothing else; outside a transaction it has no effect. -/
theorem enableFeatures_spec (s : requestState) (features : Nat) :
    (EnableFeatures (some s) features).2 = features ∧
      (EnableFeatures none features).2 = features ∧
      (EnableFeatures (some s) features).1 =
        some { r := s.r, w := s.w, features := s.features ||| features } ∧
      (EnableFeatures none features).1 = none :=
  ⟨rfl, rfl, rfl, rfl⟩

/-! ## Request trailers and request headers -/

/-- C14 (code defect): request and response trailers are read from and
written to the same map, the header map of the response sink.  On a transaction
without trailers, `SetRequestTrailer("X", "1")` makes the response trailer `X`
appear, and `SetResponseTrailer("X", "1")` makes the request trailer `X`
appear. -/
theorem request_and_response_trailers_shared :
    GetResponseTrailer (bufferingExample ∅) "X" = ("", false) ∧
      GetResponseTrailerNames (bufferingExample ∅) = [] ∧
      GetResponseTrailer (SetRequestTrailer (bufferingExample ∅) "X" "1") "X" = ("1", true) ∧
      GetResponseTrailerNames (SetRequestTrailer (bufferingExample ∅) "X" "1") = ["X"] ∧
      GetRequestTrailer (bufferingExample ∅) "X" = ("", false) ∧
      GetRequestTrailerNames (bufferingExample ∅) = [] ∧
      GetRequestTrailer (SetResponseTrailer (bufferingExample ∅) "X" "1") "X" = ("1", true) ∧
      GetRequestTrailerNames (SetResponseTrailer (bufferingExample ∅) "X" "1") = ["X"] := by
  decide

/-- What `GetRequestHeader` does after `SetRequestHeader` for a name other
than `Host`: it returns the value that was set. -/
theorem setRequestHeader_then_get_of_ne_host (s : requestState) (n v : String)
    (hn : CanonicalMIMEHeaderKey n ≠ "Host") :
    GetRequestHeader (SetRequestHeader s n v) n = (v, true) := by
  simp [GetRequestHeader, SetRequestHeader, hn, values_set_same]

/-- What `GetRequestHeader` does after `SetRequestHeader` for a name that
canonicalises to `Host`: it reports the authority `r.Host`, whatever was set. -/
theorem setRequestHeader_then_get_host (s : requestState) (n v : String)
    (hn : CanonicalMIMEHeaderKey n = "Host") :
    GetRequestHeader (SetRequestHeader s n v) n = (s.r.Host, decide (s.r.Host ≠ "")) := by
  simp [GetRequestHeader, SetRequestHeader, hn]

/-- C15 (code defect): on the request for `example.com`,
`SetRequestHeader("Host", "other.example")` followed by
`GetRequestHeader("Host")` returns `("example.com", true)`, and the same in
lower case; the value is stored in the header map, where the getter does not
look for this name. -/
theorem setRequestHeader_host_not_read_back :
    GetRequestHeader (SetRequestHeader (bufferingExample ∅) "Host" "other.example") "Host" =
        ("example.com", true) ∧
      GetRequestHeader (SetRequestHeader (bufferingExample ∅) "host" "other.example") "host" =
        ("example.com", true) ∧
      (SetRequestHeader (bufferingExample ∅) "Host" "other.example").r.Header.Values "Host" =
        ["other.example"] ∧
      (SetRequestHeader (bufferingExample ∅) "Host" "other.example").r.Host = "example.com" := by
  decide

end Wasm
